import Mathlib

/-!
# Verification of the OGScraper content pipeline

Shallow embedding of the OGScraper Python modules (`ogscraper/processing.py`,
`ogscraper/async_extractors.py`, `ogscraper/extractors.py`,
`ogscraper/discovery.py`, `ogscraper/scraper.py`) together with proofs about
the behaviours documented in the project specification.

Modelling conventions:
* Python strings are Lean `String`s; `len` on a Python string counts code
  points, which matches `String.length`.  The Python string primitives used
  by the code (`in`, `split`, `join`, `lower`, `strip`, `startswith`,
  `endswith`) are modelled by executable functions on the underlying
  character lists; `lower` is modelled on the ASCII range (all the constants
  the code compares against are ASCII).
* The MD5 digest used for deduplication is modelled as the identity function
  on the content string: MD5 is treated as a collision-free stable digest,
  and no property proved here depends on hash collisions.  An MD5 hex digest
  is never the empty string, so Python truthiness of a stored digest is
  modelled as `Option.isSome`.
* Network and DOM operations (HTTP fetches, browser rendering, BeautifulSoup
  selector queries, nested sitemap fetches) are modelled as explicit oracle
  parameters; everything else is translated directly from the source.
-/

namespace OGScraper

/-! ## Python string primitives -/

/-- Python's whitespace set for `str.strip()` / `str.split()` (ASCII part). -/
def pyIsSpace (c : Char) : Bool :=
  c == ' ' || c == '\t' || c == '\n' || c == '\r' || c == '\x0b' || c == '\x0c'

/-- Python `pat in s` on character lists: some suffix of `s` starts with
`pat`. -/
def containsSeq (pat : List Char) : List Char → Bool
  | [] => pat.isEmpty
  | c :: rest => pat.isPrefixOf (c :: rest) || containsSeq pat rest

/-- Python `pat in s` substring test. -/
def strContains (s pat : String) : Bool :=
  containsSeq pat.data s.data

/-- Python `s.lower()` (ASCII). -/
def pyLower (s : String) : String :=
  String.mk (s.data.map Char.toLower)

/-- Python `s.strip()`. -/
def pyStrip (s : String) : String :=
  String.mk (((s.data.dropWhile pyIsSpace).reverse.dropWhile pyIsSpace).reverse)

/-- Python `s.startswith(pre)`. -/
def pyStartsWith (s pre : String) : Bool :=
  pre.data.isPrefixOf s.data

/-- Python `s.endswith(suf)`. -/
def pyEndsWith (s suf : String) : Bool :=
  suf.data.isSuffixOf s.data

/-- One left-to-right scan of Python `str.split` for the nonempty separator
`c0 :: sep'`; `acc` holds the current piece in reverse.  The `fuel`
argument only bounds the recursion (callers pass the length of the scanned
list, and each step consumes at least one character, so the fuel is never
exhausted); it makes the definition structurally recursive so that proofs
by evaluation can go through the kernel. -/
def splitSeqGo (c0 : Char) (sep' : List Char) :
    Nat → List Char → List Char → List (List Char)
  | _, [], acc => [acc.reverse]
  | 0, s, acc => [acc.reverse ++ s]
  | fuel + 1, c :: rest, acc =>
    if (c0 :: sep').isPrefixOf (c :: rest) then
      acc.reverse :: splitSeqGo c0 sep' fuel (List.drop sep'.length rest) []
    else
      splitSeqGo c0 sep' fuel rest (c :: acc)

/-- Python `s.split(sep)` on character lists (`sep = []` cannot occur:
`str.split('')` raises in Python). -/
def splitSeq (sep s : List Char) : List (List Char) :=
  match sep with
  | [] => [s]
  | c0 :: sep' => splitSeqGo c0 sep' s.length s []

/-- Python `sep.join(xs)` on character lists. -/
def joinSeq (sep : List Char) : List (List Char) → List Char
  | [] => []
  | [x] => x
  | x :: y :: ys => x ++ sep ++ joinSeq sep (y :: ys)

/-- Python `s.split(sep)` on strings. -/
def pySplit (sep s : String) : List String :=
  (splitSeq sep.data s.data).map String.mk

/-- Python `sep.join(xs)` on strings. -/
def pyJoin (sep : String) (xs : List String) : String :=
  String.mk (joinSeq sep.data (xs.map String.data))

/-- Python `s.split()` (split on whitespace runs, dropping empty tokens);
`acc` holds the current token in reverse. -/
def wsSplitGo : List Char → List Char → List (List Char)
  | [], [] => []
  | [], acc => [acc.reverse]
  | c :: rest, acc =>
    if pyIsSpace c then
      match acc with
      | [] => wsSplitGo rest []
      | _ => acc.reverse :: wsSplitGo rest []
    else wsSplitGo rest (c :: acc)

/-- Python `s.split()` on strings. -/
def pySplitWs (s : String) : List String :=
  (wsSplitGo s.data []).map String.mk

/-! ## Content Processor: data model and deduplication
(`ogscraper/processing.py`) -/

/-- `ScrapedItem` from `ogscraper/models.py`. -/
structure ScrapedItem where
  title : String
  content : String
  content_type : String
  source_url : String
deriving Repr, DecidableEq

/-- `ContentProcessor._generate_content_hash` (`processing.py` line 91-93).
MD5 is modelled as a collision-free digest, i.e. the content itself. -/
def contentHash (content : String) : String := content

/-- `ContentProcessor._is_likely_blog_url` (`processing.py` lines 150-155). -/
def isLikelyBlogUrl (url : String) : Bool :=
  ["/blog/", "/blogs/", "/article/", "/articles/", "/post/", "/posts/",
   "/news/", "/resource/", "/resources/", "/insights/", "/updates/",
   "/content/", "/press/", "/media/", "/stories/"].any
    (fun indicator => strContains (pyLower url) indicator)

/-- Number of items of `items` whose content hash is `h`
(`content_hash_counts[h]` in `_deduplicate_items`). -/
def countHash (items : List ScrapedItem) (h : String) : Nat :=
  (items.filter (fun it => contentHash it.content == h)).length

/-- The distinct content hashes of `items` in first-occurrence order
(the iteration order of the Python dict `content_hash_counts`). -/
def hashKeys : List ScrapedItem → List String
  | [] => []
  | it :: rest =>
    contentHash it.content ::
      (hashKeys rest).filter (fun h => h != contentHash it.content)

/-- The template content hash picked by `_deduplicate_items` lines 45-51:
the last hash in dict order whose count exceeds 3 (`none` when no hash has
count > 3, i.e. `generic_extraction_detected` stays false). -/
def templateHash (items : List ScrapedItem) : Option String :=
  (hashKeys items).foldl
    (fun acc h => if countHash items h > 3 then some h else acc) none

/-- The plain hash-based deduplication loop of `_deduplicate_items`
lines 80-87 (`seen_hashes` is the second argument). -/
def dedupLoop : List ScrapedItem → List String → List ScrapedItem
  | [], _ => []
  | it :: rest, seen =>
    let h := contentHash it.content
    if h ∈ seen then dedupLoop rest seen
    else it :: dedupLoop rest (h :: seen)

/-- `ContentProcessor._deduplicate_items` (`processing.py` lines 33-89). -/
def deduplicateItems (items : List ScrapedItem) : List ScrapedItem :=
  match templateHash items with
  | some h =>
    let filtered := items.filter
      (fun it => contentHash it.content != h || !isLikelyBlogUrl it.source_url)
    if filtered.isEmpty && !items.isEmpty then
      match items with
      | [] => []
      | rep :: _ => [{ rep with title := "[Template Content] " ++ rep.title }]
    else dedupLoop filtered []
  | none => dedupLoop items []

/-! ## Content Processor: chunking (`ogscraper/processing.py`) -/

/-- One step of the greedy paragraph-packing loop in
`ContentProcessor._chunk_content` lines 132-142.  The state is
`(chunks, current_chunk, current_length)`. -/
def chunkStep (m : Nat) (st : List String × List String × Nat) (p : String) :
    List String × List String × Nat :=
  let (chunks, cur, curLen) := st
  if curLen + p.length > m && !cur.isEmpty then
    (chunks ++ [pyJoin "\n\n" cur], [p], p.length)
  else
    (chunks, cur ++ [p], curLen + p.length + 2)

/-- `ContentProcessor._chunk_content` (`processing.py` lines 125-148). -/
def chunkContent (m : Nat) (content : String) : List String :=
  let paragraphs := pySplit "\n\n" content
  let r := paragraphs.foldl (chunkStep m) ([], [], 0)
  let chunks := if r.2.1.isEmpty then r.1 else r.1 ++ [pyJoin "\n\n" r.2.1]
  if chunks.isEmpty then [content] else chunks

/-- The body of the per-item loop of `ContentProcessor._chunk_large_items`
(`processing.py` lines 99-121).  `len(item.content) > m * 1.5` is expressed
integrally as `2 * len > 3 * m` (exact for IEEE floats at these sizes). -/
def chunkOne (m : Nat) (item : ScrapedItem) : List ScrapedItem :=
  if 2 * item.content.length > 3 * m then
    let chunks := chunkContent m item.content
    if chunks.length ≤ 3 && chunks.all (fun c => c.length > 1000) then
      chunks.enum.map (fun ic =>
        { title := if chunks.length > 1 then
              item.title ++ " (Part " ++ toString (ic.1 + 1) ++ ")"
            else item.title
          content := ic.2
          content_type := item.content_type
          source_url := item.source_url })
    else [item]
  else [item]

/-- `ContentProcessor._chunk_large_items` (`processing.py` lines 95-123). -/
def chunkLargeItems (m : Nat) (items : List ScrapedItem) : List ScrapedItem :=
  items.flatMap (chunkOne m)

/-- `ContentProcessor.process_items` (`processing.py` lines 21-31);
`m` is `self.max_chunk_size`. -/
def processItems (m : Nat) (items : List ScrapedItem) : List ScrapedItem :=
  chunkLargeItems m (deduplicateItems items)

/-! ## Split/join lemmas -/

theorem splitSeqGo_ne_nil (c0 : Char) (sep' : List Char) :
    ∀ (fuel : Nat) (s acc : List Char), splitSeqGo c0 sep' fuel s acc ≠ [] := by
  intro fuel
  induction fuel with
  | zero =>
    intro s acc
    cases s <;> simp [splitSeqGo]
  | succ fuel ih =>
    intro s acc
    cases s with
    | nil => simp [splitSeqGo]
    | cons c rest =>
      simp only [splitSeqGo]
      split
      · simp
      · exact ih rest (c :: acc)

theorem joinSeq_cons_of_ne_nil (sep x : List Char) {xs : List (List Char)}
    (h : xs ≠ []) : joinSeq sep (x :: xs) = x ++ sep ++ joinSeq sep xs := by
  cases xs with
  | nil => exact absurd rfl h
  | cons y ys => rfl

theorem joinSeq_splitSeqGo (c0 : Char) (sep' : List Char) :
    ∀ (fuel : Nat) (s acc : List Char),
      joinSeq (c0 :: sep') (splitSeqGo c0 sep' fuel s acc) = acc.reverse ++ s := by
  intro fuel
  induction fuel with
  | zero =>
    intro s acc
    cases s <;> simp [splitSeqGo, joinSeq]
  | succ fuel ih =>
    intro s acc
    cases s with
    | nil => simp [splitSeqGo, joinSeq]
    | cons c rest =>
      simp only [splitSeqGo]
      split
      · rename_i hpre
        rw [joinSeq_cons_of_ne_nil _ _ (splitSeqGo_ne_nil c0 sep' _ _ _), ih]
        have hdrop : (c0 :: sep') ++ List.drop (c0 :: sep').length (c :: rest) = c :: rest :=
          List.prefix_iff_eq_append.mp (List.isPrefixOf_iff_prefix.mp hpre)
        simp only [List.length_cons, List.drop_succ_cons, List.cons_append] at hdrop
        simp only [List.reverse_nil, List.nil_append, List.append_assoc, List.length_cons,
          List.drop_succ_cons, List.cons_append]
        rw [hdrop]
      · rw [ih]
        simp

theorem joinSeq_splitSeq {sep : List Char} (h : sep ≠ []) (s : List Char) :
    joinSeq sep (splitSeq sep s) = s := by
  match sep with
  | [] => exact absurd rfl h
  | c0 :: sep' =>
    simpa using joinSeq_splitSeqGo c0 sep' s.length s []

theorem pyJoin_pySplit {sep : String} (h : sep.data ≠ []) (s : String) :
    pyJoin sep (pySplit sep s) = s := by
  unfold pyJoin pySplit
  rw [List.map_map]
  have : (String.data ∘ String.mk) = id := rfl
  rw [this, List.map_id, joinSeq_splitSeq h]

theorem pySplit_ne_nil (sep s : String) : pySplit sep s ≠ [] := by
  unfold pySplit splitSeq
  split
  · simp
  · simp [splitSeqGo_ne_nil]

theorem joinSeq_append (sep : List Char) {a b : List (List Char)}
    (ha : a ≠ []) (hb : b ≠ []) :
    joinSeq sep (a ++ b) = joinSeq sep a ++ sep ++ joinSeq sep b := by
  induction a with
  | nil => exact absurd rfl ha
  | cons x a' ih =>
    cases a' with
    | nil =>
      simp only [List.singleton_append, joinSeq]
      rw [joinSeq_cons_of_ne_nil _ _ hb]
    | cons y a'' =>
      have e1 : joinSeq sep (x :: y :: (a'' ++ b)) = x ++ sep ++ joinSeq sep (y :: (a'' ++ b)) := rfl
      have e2 : joinSeq sep (x :: y :: a'') = x ++ sep ++ joinSeq sep (y :: a'') := rfl
      have h3 := ih (by simp)
      simp only [List.cons_append] at h3 ⊢
      rw [e1, e2, h3]
      simp [List.append_assoc]

theorem flatten_ne_nil_of_forall_ne_nil {α : Type} {gs : List (List α)}
    (hne : gs ≠ []) (h : ∀ g ∈ gs, g ≠ []) : gs.flatten ≠ [] := by
  cases gs with
  | nil => exact absurd rfl hne
  | cons g gs' =>
    have hg : g ≠ [] := h g (by simp)
    simp only [List.flatten_cons]
    intro hcontra
    rcases List.append_eq_nil.mp hcontra with ⟨h1, _⟩
    exact hg h1

theorem joinSeq_map_joinSeq (sep : List Char) :
    ∀ (gs : List (List (List Char))), (∀ g ∈ gs, g ≠ []) →
      joinSeq sep (gs.map (joinSeq sep)) = joinSeq sep gs.flatten := by
  intro gs
  induction gs with
  | nil => intro _; rfl
  | cons g gs' ih =>
    intro h
    cases hgs' : gs' with
    | nil => simp [joinSeq]
    | cons g1 gs'' =>
      subst hgs'
      have hg : g ≠ [] := h g (by simp)
      have hrest : ∀ g' ∈ g1 :: gs'', g' ≠ [] := fun g' hmem => h g' (by simp [hmem])
      have hflat : (g1 :: gs'').flatten ≠ [] :=
        flatten_ne_nil_of_forall_ne_nil (by simp) hrest
      simp only [List.map_cons, List.flatten_cons]
      have e1 : joinSeq sep (joinSeq sep g :: joinSeq sep g1 :: List.map (joinSeq sep) gs'')
          = joinSeq sep g ++ sep ++ joinSeq sep (List.map (joinSeq sep) (g1 :: gs'')) := rfl
      rw [e1, ih hrest,
          show g ++ (g1 ++ gs''.flatten) = g ++ (g1 :: gs'').flatten from by
            simp [List.flatten_cons],
          joinSeq_append sep hg hflat]

theorem pyJoin_map_pyJoin (sep : String) (gs : List (List String))
    (h : ∀ g ∈ gs, g ≠ []) :
    pyJoin sep (gs.map (pyJoin sep)) = pyJoin sep gs.flatten := by
  have key : (gs.map (pyJoin sep)).map String.data
      = (gs.map (fun g => g.map String.data)).map (joinSeq sep.data) := by
    simp only [List.map_map]
    rfl
  show String.mk (joinSeq sep.data ((gs.map (pyJoin sep)).map String.data))
    = String.mk (joinSeq sep.data (gs.flatten.map String.data))
  rw [key, joinSeq_map_joinSeq]
  · rw [List.map_flatten]
  · intro g hg
    rcases List.mem_map.mp hg with ⟨g', hg', rfl⟩
    simpa using h g' hg'

/-! ## Chunking: the greedy fold partitions the paragraph list -/

theorem chunkFold_partition (m : Nat) :
    ∀ (ps cur : List String) (len : Nat) (groups : List (List String)),
      (∀ g ∈ groups, g ≠ []) →
      ∃ groups' : List (List String),
        (ps.foldl (chunkStep m) (groups.map (pyJoin "\n\n"), cur, len)).1
            = groups'.map (pyJoin "\n\n") ∧
        (∀ g ∈ groups', g ≠ []) ∧
        groups'.flatten ++ (ps.foldl (chunkStep m) (groups.map (pyJoin "\n\n"), cur, len)).2.1
            = groups.flatten ++ cur ++ ps ∧
        ((ps.foldl (chunkStep m) (groups.map (pyJoin "\n\n"), cur, len)).2.1 = []
            → cur = [] ∧ ps = []) := by
  intro ps
  induction ps with
  | nil =>
    intro cur len groups hne
    exact ⟨groups, rfl, hne, by simp, fun h => ⟨h, rfl⟩⟩
  | cons p ps ih =>
    intro cur len groups hne
    simp only [List.foldl_cons]
    by_cases hcond : (len + p.length > m && !cur.isEmpty) = true
    · have hcur : cur ≠ [] := by
        intro hc
        subst hc
        simp at hcond
      have hstep : chunkStep m (groups.map (pyJoin "\n\n"), cur, len) p
          = ((groups ++ [cur]).map (pyJoin "\n\n"), [p], p.length) := by
        simp [chunkStep, hcond]
      rw [hstep]
      have hne' : ∀ g ∈ groups ++ [cur], g ≠ [] := by
        intro g hg
        rcases List.mem_append.mp hg with h | h
        · exact hne g h
        · simp only [List.mem_singleton] at h
          subst h; exact hcur
      rcases ih [p] p.length (groups ++ [cur]) hne' with ⟨groups', h1, h2, h3, h4⟩
      refine ⟨groups', h1, h2, ?_, ?_⟩
      · rw [h3]
        simp [List.append_assoc]
      · intro hnil
        rcases h4 hnil with ⟨hp, _⟩
        exact absurd hp (by simp)
    · have hstep : chunkStep m (groups.map (pyJoin "\n\n"), cur, len) p
          = (groups.map (pyJoin "\n\n"), cur ++ [p], len + p.length + 2) := by
        simp only [chunkStep]
        rw [if_neg hcond]
      rw [hstep]
      rcases ih (cur ++ [p]) (len + p.length + 2) groups hne with ⟨groups', h1, h2, h3, h4⟩
      refine ⟨groups', h1, h2, ?_, ?_⟩
      · rw [h3]
        simp [List.append_assoc]
      · intro hnil
        rcases h4 hnil with ⟨hp, _⟩
        exact absurd hp (by simp)

theorem chunkContent_partition (m : Nat) (content : String) :
    ∃ groups : List (List String),
      (∀ g ∈ groups, g ≠ []) ∧
      groups.flatten = pySplit "\n\n" content ∧
      chunkContent m content = groups.map (pyJoin "\n\n") := by
  have key := chunkFold_partition m (pySplit "\n\n" content) [] 0 [] (by simp)
  rcases key with ⟨groups', heq, hne', h3, h4⟩
  simp only [List.map_nil, List.flatten_nil, List.nil_append] at heq h3 h4
  set r := (pySplit "\n\n" content).foldl (chunkStep m) ([], [], 0) with hr
  by_cases hfin : r.2.1 = []
  · exact absurd (h4 hfin).2 (pySplit_ne_nil _ _)
  · refine ⟨groups' ++ [r.2.1], ?_, ?_, ?_⟩
    · intro g hg
      rcases List.mem_append.mp hg with h | h
      · exact hne' g h
      · simp only [List.mem_singleton] at h; subst h; exact hfin
    · simp only [List.flatten_append, List.flatten_cons, List.flatten_nil, List.append_nil]
      exact h3
    · have h5 : r.2.1.isEmpty = false := by simpa using hfin
      simp only [chunkContent]
      rw [← hr, heq, h5]
      simp [List.map_append]

/-- **C4.**  For every content string (and configured chunk size), joining
the chunks produced by `_chunk_content` with the paragraph separator
`"\n\n"` reconstructs the original content, and the chunks are exactly the
concatenations of the groups of a partition of the paragraph list — so no
paragraph is ever split across chunk boundaries. -/
theorem chunk_join_reconstructs (m : Nat) (content : String) :
    pyJoin "\n\n" (chunkContent m content) = content ∧
    ∃ groups : List (List String),
      (∀ g ∈ groups, g ≠ []) ∧
      groups.flatten = pySplit "\n\n" content ∧
      chunkContent m content = groups.map (pyJoin "\n\n") := by
  rcases chunkContent_partition m content with ⟨groups, h1, h2, h3⟩
  refine ⟨?_, groups, h1, h2, h3⟩
  rw [h3, pyJoin_map_pyJoin _ _ h1, h2, pyJoin_pySplit (by decide)]

/-! ## Chunking is the identity on small items (C3) -/

theorem chunkOne_of_small {m : Nat} {item : ScrapedItem}
    (h : 2 * item.content.length ≤ 3 * m) : chunkOne m item = [item] := by
  unfold chunkOne
  rw [if_neg (by omega)]

theorem chunkLargeItems_of_all_small {m : Nat} {items : List ScrapedItem}
    (h : ∀ it ∈ items, 2 * it.content.length ≤ 3 * m) :
    chunkLargeItems m items = items := by
  induction items with
  | nil => rfl
  | cons it rest ih =>
    unfold chunkLargeItems
    rw [List.flatMap_cons, chunkOne_of_small (h it (by simp))]
    have := ih (fun it' h' => h it' (by simp [h']))
    unfold chunkLargeItems at this
    rw [this]
    rfl

/-- **C3.**  An item whose content length is at most 1.5× the configured
chunk size passes through the chunking stage unchanged, wherever it sits in
the input list; only items whose content length exceeds 1.5× the chunk size
are candidates for splitting. -/
theorem chunk_small_item_identity (m : Nat) (item : ScrapedItem)
    (xs ys : List ScrapedItem)
    (h : 2 * item.content.length ≤ 3 * m) :
    chunkLargeItems m (xs ++ item :: ys)
      = chunkLargeItems m xs ++ item :: chunkLargeItems m ys := by
  unfold chunkLargeItems
  rw [List.flatMap_append, List.flatMap_cons, chunkOne_of_small h]
  rfl

/-- Witness for `chunk_small_item_identity` at a concrete input. -/
theorem chunk_small_item_identity_witness :
    2 * (ScrapedItem.mk "t" "hello" "blog" "u").content.length ≤ 3 * 8000 ∧
    chunkLargeItems 8000 ([] ++ ScrapedItem.mk "t" "hello" "blog" "u" :: [])
      = chunkLargeItems 8000 []
          ++ ScrapedItem.mk "t" "hello" "blog" "u" :: chunkLargeItems 8000 [] :=
  ⟨by decide, chunk_small_item_identity 8000 _ [] [] (by decide)⟩

/-! ## Deduplication: structural lemmas -/

/-- Distinct content hashes, as a pairwise relation. -/
def HashDistinct (items : List ScrapedItem) : Prop :=
  items.Pairwise (fun a b => contentHash a.content ≠ contentHash b.content)

theorem dedupLoop_mem_subset :
    ∀ (l : List ScrapedItem) (seen : List String) (it : ScrapedItem),
      it ∈ dedupLoop l seen → it ∈ l := by
  intro l
  induction l with
  | nil => intro seen it h; simp [dedupLoop] at h
  | cons x rest ih =>
    intro seen it h
    simp only [dedupLoop] at h
    split at h
    · exact List.mem_cons_of_mem x (ih _ it h)
    · rcases List.mem_cons.mp h with h1 | h1
      · simp [h1]
      · exact List.mem_cons_of_mem x (ih _ it h1)

theorem dedupLoop_spec :
    ∀ (l : List ScrapedItem) (seen : List String),
      HashDistinct (dedupLoop l seen) ∧
      ∀ it ∈ dedupLoop l seen, contentHash it.content ∉ seen := by
  intro l
  induction l with
  | nil => intro seen; exact ⟨List.Pairwise.nil, by simp [dedupLoop]⟩
  | cons x rest ih =>
    intro seen
    simp only [dedupLoop]
    split
    · exact ih seen
    · rename_i hnot
      rcases ih (contentHash x.content :: seen) with ⟨hpw, hseen⟩
      constructor
      · refine List.Pairwise.cons ?_ hpw
        intro b hb
        have := hseen b hb
        simp only [List.mem_cons, not_or] at this
        exact fun hcontra => this.1 hcontra.symm
      · intro it hit
        rcases List.mem_cons.mp hit with h1 | h1
        · subst h1; exact hnot
        · have := hseen it h1
          simp only [List.mem_cons, not_or] at this
          exact this.2

theorem dedupLoop_of_distinct :
    ∀ (l : List ScrapedItem) (seen : List String),
      HashDistinct l → (∀ it ∈ l, contentHash it.content ∉ seen) →
      dedupLoop l seen = l := by
  intro l
  induction l with
  | nil => intro seen _ _; rfl
  | cons x rest ih =>
    intro seen hpw hseen
    simp only [dedupLoop]
    rw [if_neg (hseen x (by simp))]
    congr 1
    refine ih _ (List.Pairwise.sublist (List.sublist_cons_self x rest) hpw) ?_
    intro it hit
    simp only [List.mem_cons, not_or]
    refine ⟨?_, hseen it (by simp [hit])⟩
    intro hcontra
    exact (List.pairwise_cons.mp hpw).1 it hit hcontra.symm

theorem countHash_le_one_of_distinct {l : List ScrapedItem}
    (h : HashDistinct l) (hsh : String) : countHash l hsh ≤ 1 := by
  induction l with
  | nil => simp [countHash]
  | cons x rest ih =>
    rcases List.pairwise_cons.mp h with ⟨hx, hrest⟩
    unfold countHash at ih ⊢
    simp only [List.filter_cons]
    split
    · rename_i hxh
      have hxh' : contentHash x.content = hsh := by simpa using hxh
      have : (rest.filter (fun it => contentHash it.content == hsh)) = [] := by
        rw [List.filter_eq_nil_iff]
        intro it hit
        simp only [beq_iff_eq]
        intro hcontra
        exact hx it hit (hxh'.trans hcontra.symm)
      simp [this]
    · exact ih hrest

theorem templateHash_eq_none {items : List ScrapedItem}
    (h : ∀ hsh : String, countHash items hsh ≤ 3) : templateHash items = none := by
  unfold templateHash
  have : ∀ (hs : List String) (acc : Option String), acc = none →
      hs.foldl (fun acc h => if countHash items h > 3 then some h else acc) acc = none := by
    intro hs
    induction hs with
    | nil => intro acc hacc; simpa using hacc
    | cons hd tl ih =>
      intro acc hacc
      simp only [List.foldl_cons]
      rw [if_neg (by have := h hd; omega)]
      exact ih acc hacc
  exact this _ none rfl

theorem deduplicateItems_of_templateHash_none {l : List ScrapedItem}
    (h : templateHash l = none) : deduplicateItems l = dedupLoop l [] := by
  simp only [deduplicateItems, h]

theorem deduplicateItems_distinct (items : List ScrapedItem) :
    HashDistinct (deduplicateItems items) := by
  simp only [deduplicateItems]
  split
  · split
    · split
      · exact List.Pairwise.nil
      · exact List.pairwise_singleton _ _
    · exact (dedupLoop_spec _ []).1
  · exact (dedupLoop_spec _ []).1

theorem deduplicateItems_idem (items : List ScrapedItem) :
    deduplicateItems (deduplicateItems items) = deduplicateItems items := by
  have hdist := deduplicateItems_distinct items
  have hnone : templateHash (deduplicateItems items) = none :=
    templateHash_eq_none (fun hsh =>
      le_trans (countHash_le_one_of_distinct hdist hsh) (by omega))
  rw [deduplicateItems_of_templateHash_none hnone]
  exact dedupLoop_of_distinct _ [] hdist (by simp)

theorem deduplicateItems_content_mem (items : List ScrapedItem) :
    ∀ it ∈ deduplicateItems items, ∃ it' ∈ items, it.content = it'.content := by
  simp only [deduplicateItems]
  split
  · split
    · cases items with
      | nil => simp
      | cons rep rest' =>
        intro it hit
        simp only [List.mem_singleton] at hit
        subst hit
        exact ⟨rep, by simp, rfl⟩
    · intro it hit
      have h1 := dedupLoop_mem_subset _ _ _ hit
      exact ⟨it, List.mem_of_mem_filter h1, rfl⟩
  · intro it hit
    exact ⟨it, dedupLoop_mem_subset _ _ _ hit, rfl⟩

/-- **C2 (amended).**  Deduplication alone is idempotent, and the full
Content Processor (deduplication followed by chunking) is idempotent on any
input whose items all have content length at most 1.5× the configured chunk
size (so that chunking is the identity).  Full-processor idempotence fails
in general; see the counterexample. -/
theorem processItems_idem_amended (m : Nat) (xs : List ScrapedItem) :
    deduplicateItems (deduplicateItems xs) = deduplicateItems xs ∧
    ((∀ it ∈ xs, 2 * it.content.length ≤ 3 * m) →
      processItems m (processItems m xs) = processItems m xs) := by
  refine ⟨deduplicateItems_idem xs, ?_⟩
  intro hsmall
  have h1 : ∀ it ∈ deduplicateItems xs, 2 * it.content.length ≤ 3 * m := by
    intro it hit
    rcases deduplicateItems_content_mem xs it hit with ⟨it', hit', heq⟩
    rw [heq]
    exact hsmall it' hit'
  have hchunk : chunkLargeItems m (deduplicateItems xs) = deduplicateItems xs :=
    chunkLargeItems_of_all_small h1
  show chunkLargeItems m (deduplicateItems (chunkLargeItems m (deduplicateItems xs)))
      = chunkLargeItems m (deduplicateItems xs)
  rw [hchunk, deduplicateItems_idem, hchunk]

/-- Witness for `processItems_idem_amended` at a concrete input. -/
theorem processItems_idem_amended_witness :
    processItems 8000 (processItems 8000 [ScrapedItem.mk "t" "hello" "blog" "u"])
      = processItems 8000 [ScrapedItem.mk "t" "hello" "blog" "u"] :=
  (processItems_idem_amended 8000 [ScrapedItem.mk "t" "hello" "blog" "u"]).2 (by decide)

/-! ## The processor is not idempotent in general (counterexample to C2)

The item below has content `Q ++ "\n\n" ++ Q` for a 1001-character
paragraph `Q` and chunk size 100: chunking splits it into two chunks with
identical content, and a second run of the processor deduplicates them. -/

theorem isPrefixOf_cons_of_ne {c0 c : Char} (sep' rest : List Char)
    (h : c ≠ c0) : (c0 :: sep').isPrefixOf (c :: rest) = false := by
  show (c0 == c && sep'.isPrefixOf rest) = false
  rw [beq_eq_false_iff_ne.mpr (Ne.symm h)]
  rfl

theorem splitSeqGo_cons_eq (c0 : Char) (sep' : List Char) (fuel : Nat)
    (c : Char) (rest acc : List Char) :
    splitSeqGo c0 sep' (fuel + 1) (c :: rest) acc
      = if (c0 :: sep').isPrefixOf (c :: rest) then
          acc.reverse :: splitSeqGo c0 sep' fuel (List.drop (c0 :: sep').length (c :: rest)) []
        else splitSeqGo c0 sep' fuel rest (c :: acc) := rfl

theorem splitSeqGo_skip {c0 : Char} (sep' : List Char) :
    ∀ (q : List Char) (fuel : Nat) (s acc : List Char),
      (∀ c ∈ q, c ≠ c0) → q.length ≤ fuel →
      splitSeqGo c0 sep' fuel (q ++ s) acc
        = splitSeqGo c0 sep' (fuel - q.length) s (q.reverse ++ acc) := by
  intro q
  induction q with
  | nil => intro fuel s acc _ _; simp
  | cons c q' ih =>
    intro fuel s acc hne hlen
    match fuel with
    | 0 => simp at hlen
    | fuel + 1 =>
      have hc : c ≠ c0 := hne c (by simp)
      rw [List.cons_append, splitSeqGo_cons_eq,
        if_neg (by rw [isPrefixOf_cons_of_ne sep' _ hc]; simp)]
      rw [ih fuel s (c :: acc) (fun c' hc' => hne c' (by simp [hc']))
        (by simpa using hlen)]
      simp [Nat.succ_sub_succ, List.append_assoc]

theorem splitSeqGo_no_sep {c0 : Char} (sep' : List Char) :
    ∀ (s : List Char) (fuel : Nat) (acc : List Char),
      (∀ c ∈ s, c ≠ c0) → s.length ≤ fuel →
      splitSeqGo c0 sep' fuel s acc = [acc.reverse ++ s] := by
  intro s
  induction s with
  | nil =>
    intro fuel acc _ _
    cases fuel <;> simp [splitSeqGo]
  | cons c s' ih =>
    intro fuel acc hne hlen
    match fuel with
    | 0 => simp at hlen
    | fuel + 1 =>
      have hc : c ≠ c0 := hne c (by simp)
      rw [splitSeqGo_cons_eq,
        if_neg (by rw [isPrefixOf_cons_of_ne sep' _ hc]; simp)]
      rw [ih fuel (c :: acc) (fun c' hc' => hne c' (by simp [hc']))
        (by simpa using hlen)]
      simp

theorem splitSeqGo_sep_head (c0 : Char) (sep' : List Char)
    (fuel : Nat) (s acc : List Char) :
    splitSeqGo c0 sep' (fuel + 1) (c0 :: (sep' ++ s)) acc
      = acc.reverse :: splitSeqGo c0 sep' fuel s [] := by
  have hpre : (c0 :: sep').isPrefixOf (c0 :: (sep' ++ s)) = true := by
    apply List.isPrefixOf_iff_prefix.mpr
    simp [List.prefix_append]
  rw [splitSeqGo_cons_eq, if_pos hpre]
  simp only [List.length_cons, List.drop_succ_cons, List.drop_left]

theorem pySplit_pair {q1 q2 : List Char}
    (h1 : ∀ c ∈ q1, c ≠ '\n') (h2 : ∀ c ∈ q2, c ≠ '\n') :
    pySplit "\n\n" (String.mk q1 ++ "\n\n" ++ String.mk q2)
      = [String.mk q1, String.mk q2] := by
  have hdata : (String.mk q1 ++ "\n\n" ++ String.mk q2).data
      = q1 ++ ('\n' :: (['\n'] ++ q2)) := by
    simp [String.data_append]
  unfold pySplit
  rw [hdata]
  rw [show splitSeq ("\n\n" : String).data (q1 ++ ('\n' :: (['\n'] ++ q2)))
      = splitSeqGo '\n' ['\n'] (q1 ++ ('\n' :: (['\n'] ++ q2))).length
          (q1 ++ ('\n' :: (['\n'] ++ q2))) [] from rfl]
  rw [splitSeqGo_skip ['\n'] q1 _ _ [] h1 (by simp)]
  have hfuel : (q1 ++ ('\n' :: (['\n'] ++ q2))).length - q1.length
      = (1 + q2.length) + 1 := by
    simp
    omega
  rw [hfuel, splitSeqGo_sep_head]
  rw [splitSeqGo_no_sep ['\n'] q2 _ [] h2 (by omega)]
  simp

theorem pySplit_single {q : List Char} (h : ∀ c ∈ q, c ≠ '\n') :
    pySplit "\n\n" (String.mk q) = [String.mk q] := by
  unfold pySplit
  rw [show splitSeq ("\n\n" : String).data (String.mk q).data
      = splitSeqGo '\n' ['\n'] q.length q [] from rfl]
  rw [splitSeqGo_no_sep ['\n'] q _ [] h (by simp)]
  simp

/-- A 1001-character paragraph. -/
def c2Q : String := String.mk (List.replicate 1001 'a')

/-- An item whose content is two identical paragraphs, each above the
1000-character minimum chunk size, for a processor with chunk size 100. -/
def c2Item : ScrapedItem := ⟨"T", c2Q ++ "\n\n" ++ c2Q, "blog", "u"⟩

/-- First chunk produced from `c2Item`. -/
def c2Part1 : ScrapedItem := ⟨"T (Part 1)", c2Q, "blog", "u"⟩

/-- Second chunk produced from `c2Item`; same content as `c2Part1`. -/
def c2Part2 : ScrapedItem := ⟨"T (Part 2)", c2Q, "blog", "u"⟩

theorem templateHash_singleton (it : ScrapedItem) : templateHash [it] = none := by
  have hc : countHash [it] (contentHash it.content) = 1 := by
    unfold countHash
    simp
  unfold templateHash
  simp only [hashKeys, List.filter_nil, List.foldl_cons, List.foldl_nil, hc]
  norm_num

theorem templateHash_pair_same {a b : ScrapedItem}
    (h : contentHash a.content = contentHash b.content) :
    templateHash [a, b] = none := by
  have hc : countHash [a, b] (contentHash b.content) = 2 := by
    unfold countHash
    simp [List.filter_cons, h]
  have hkeys : hashKeys [a, b] = [contentHash b.content] := by
    simp only [hashKeys, List.filter_nil, List.filter_cons, h]
    simp
  unfold templateHash
  rw [hkeys]
  simp only [List.foldl_cons, List.foldl_nil, hc]
  norm_num

theorem dedupLoop_singleton (it : ScrapedItem) : dedupLoop [it] [] = [it] := by
  simp [dedupLoop]

theorem dedupLoop_pair_same {a b : ScrapedItem}
    (h : contentHash a.content = contentHash b.content) :
    dedupLoop [a, b] [] = [a] := by
  simp [dedupLoop, h]

theorem c2Q_chars : ∀ c ∈ (List.replicate 1001 'a'), c ≠ '\n' := by
  intro c hc
  rw [List.eq_of_mem_replicate hc]
  decide

theorem c2Q_length : c2Q.length = 1001 := by
  show (String.mk (List.replicate 1001 'a')).length = 1001
  rw [String.length_mk, List.length_replicate]

theorem c2_join_single : pyJoin "\n\n" [c2Q] = c2Q := rfl

theorem c2_split : pySplit "\n\n" (c2Q ++ "\n\n" ++ c2Q) = [c2Q, c2Q] :=
  pySplit_pair c2Q_chars c2Q_chars

theorem c2_chunkContent : chunkContent 100 (c2Q ++ "\n\n" ++ c2Q) = [c2Q, c2Q] := by
  have hstep1 : chunkStep 100 ([], [], 0) c2Q = ([], [c2Q], 0 + c2Q.length + 2) := by
    simp [chunkStep]
  have hstep2 : chunkStep 100 ([], [c2Q], 0 + c2Q.length + 2) c2Q
      = ([pyJoin "\n\n" [c2Q]], [c2Q], c2Q.length) := by
    simp only [chunkStep, c2Q_length]
    norm_num
  simp only [chunkContent, c2_split, List.foldl_cons, List.foldl_nil, hstep1, hstep2,
    c2_join_single]
  simp

theorem c2Item_content_length : c2Item.content.length = 2004 := by
  show (c2Q ++ "\n\n" ++ c2Q).length = 2004
  rw [String.length_append, String.length_append, c2Q_length,
    show ("\n\n" : String).length = 2 from rfl]

theorem c2_chunkOne : chunkOne 100 c2Item = [c2Part1, c2Part2] := by
  unfold chunkOne
  rw [if_pos (by rw [c2Item_content_length]; norm_num)]
  simp only [show chunkContent 100 c2Item.content = [c2Q, c2Q] from c2_chunkContent]
  rw [if_pos (by simp [c2Q_length])]
  rfl

theorem c2_dedup_once : deduplicateItems [c2Item] = [c2Item] := by
  rw [deduplicateItems_of_templateHash_none (templateHash_singleton c2Item)]
  exact dedupLoop_singleton c2Item

theorem c2_process_once : processItems 100 [c2Item] = [c2Part1, c2Part2] := by
  unfold processItems
  rw [c2_dedup_once]
  unfold chunkLargeItems
  simp only [List.flatMap_cons, List.flatMap_nil, c2_chunkOne, List.append_nil]

theorem c2_dedup_twice : deduplicateItems [c2Part1, c2Part2] = [c2Part1] := by
  rw [deduplicateItems_of_templateHash_none
    (@templateHash_pair_same c2Part1 c2Part2 rfl)]
  exact @dedupLoop_pair_same c2Part1 c2Part2 rfl

theorem c2_chunkContent_single : chunkContent 100 c2Q = [c2Q] := by
  have hsingle : pySplit "\n\n" c2Q = [c2Q] := pySplit_single c2Q_chars
  have hstep : chunkStep 100 ([], [], 0) c2Q = ([], [c2Q], 0 + c2Q.length + 2) := by
    simp [chunkStep]
  simp only [chunkContent, hsingle, List.foldl_cons, List.foldl_nil, hstep]
  simp [c2_join_single]

theorem c2_chunkOne_part1 : chunkOne 100 c2Part1 = [c2Part1] := by
  unfold chunkOne
  rw [if_pos (show 2 * c2Part1.content.length > 3 * 100 by
    rw [show c2Part1.content = c2Q from rfl, c2Q_length]; norm_num)]
  simp only [show chunkContent 100 c2Part1.content = [c2Q] from c2_chunkContent_single]
  rw [if_pos (by simp [c2Q_length])]
  rfl

/-- **Counterexample to C2.**  The Content Processor is not idempotent:
for the single item `c2Item` (content `Q\n\nQ` with `|Q| = 1001`, chunk
size 100), one run yields two chunks with identical content, and the
second run deduplicates them down to one. -/
theorem processItems_not_idempotent :
    processItems 100 (processItems 100 [c2Item]) ≠ processItems 100 [c2Item] := by
  rw [c2_process_once]
  have h2 : processItems 100 [c2Part1, c2Part2] = [c2Part1] := by
    unfold processItems
    rw [c2_dedup_twice]
    unfold chunkLargeItems
    simp only [List.flatMap_cons, List.flatMap_nil, c2_chunkOne_part1, List.append_nil]
  rw [h2]
  intro hcontra
  have hlen := congrArg List.length hcontra
  simp at hlen

/-! ## Template-content detection (C1) -/

theorem mem_hashKeys {h : String} :
    ∀ {l : List ScrapedItem}, h ∈ hashKeys l ↔ ∃ it ∈ l, contentHash it.content = h := by
  intro l
  induction l with
  | nil => simp [hashKeys]
  | cons it rest ih =>
    simp only [hashKeys, List.mem_cons, List.mem_filter, bne_iff_ne]
    constructor
    · rintro (h1 | ⟨h1, _⟩)
      · exact ⟨it, by simp, h1.symm⟩
      · rcases ih.mp h1 with ⟨it', hit', heq⟩
        exact ⟨it', by simp [hit'], heq⟩
    · rintro ⟨it', hit', heq⟩
      rcases hit' with h1 | h1
      · subst h1; exact Or.inl heq.symm
      · by_cases hsame : h = contentHash it.content
        · exact Or.inl hsame
        · exact Or.inr ⟨ih.mpr ⟨it', h1, heq⟩, hsame⟩

theorem foldl_template_const (items : List ScrapedItem) :
    ∀ (hs : List String) (acc : Option String),
      (∀ h ∈ hs, ¬ 3 < countHash items h) →
      hs.foldl (fun acc h => if countHash items h > 3 then some h else acc) acc = acc := by
  intro hs
  induction hs with
  | nil => intro acc _; rfl
  | cons hd tl ih =>
    intro acc hall
    simp only [List.foldl_cons]
    rw [if_neg (hall hd (by simp))]
    exact ih acc (fun h hh => hall h (by simp [hh]))

theorem foldl_template_pick (items : List ScrapedItem) (c : String) :
    ∀ (hs : List String) (acc : Option String),
      c ∈ hs → 3 < countHash items c →
      (∀ h ∈ hs, 3 < countHash items h → h = c) →
      hs.foldl (fun acc h => if countHash items h > 3 then some h else acc) acc = some c := by
  intro hs
  induction hs with
  | nil => intro acc hmem; simp at hmem
  | cons hd tl ih =>
    intro acc hmem hc huniq
    by_cases htl : c ∈ tl
    · simp only [List.foldl_cons]
      exact ih _ htl hc (fun h hh hgt => huniq h (by simp [hh]) hgt)
    · have hhd : hd = c := by
        rcases List.mem_cons.mp hmem with h1 | h1
        · exact h1.symm
        · exact absurd h1 htl
      subst hhd
      simp only [List.foldl_cons]
      rw [if_pos hc]
      exact foldl_template_const items tl _ (fun h hh hgt =>
        htl ((huniq h (by simp [hh]) hgt) ▸ hh))

theorem templateHash_eq_some {items : List ScrapedItem} {c : String}
    (hc : 3 < countHash items c)
    (hmem : ∃ it ∈ items, contentHash it.content = c)
    (huniq : ∀ h, 3 < countHash items h → h = c) :
    templateHash items = some c := by
  unfold templateHash
  exact foldl_template_pick items c _ none (mem_hashKeys.mpr hmem) hc
    (fun h _ hgt => huniq h hgt)

/-- **C1.**  (a) For an input list of 5 items with identical content `c`
whose source URLs all match the blog-content heuristic, plus a single 6th
item `x` with different content, `_deduplicate_items` returns exactly
`[x]` — the template group is dropped entirely (zero representatives kept,
and in particular never more than 2 items total).  (b) Whenever template
filtering removes every item (all items share one content hash with more
than 3 occurrences and all have blog-like URLs), exactly one
representative — the first item — is kept, with its title prefixed with
"[Template Content] ". -/
theorem dedup_template_scenario (l : List ScrapedItem) (c : String) (x : ScrapedItem)
    (h5 : (l.filter (fun it => it.content == c)).length = 5)
    (hblog : ∀ it ∈ l, it.content = c → isLikelyBlogUrl it.source_url = true)
    (hx : l.filter (fun it => it.content != c) = [x]) :
    deduplicateItems l = [x] ∧
    ∀ (rep : ScrapedItem) (tl : List ScrapedItem) (c' : String),
      3 < (rep :: tl).length →
      (∀ it ∈ rep :: tl, it.content = c') →
      (∀ it ∈ rep :: tl, isLikelyBlogUrl it.source_url = true) →
      deduplicateItems (rep :: tl)
        = [{ rep with title := "[Template Content] " ++ rep.title }] := by
  constructor
  · -- (a): the 5-plus-1 scenario
    have hcount : countHash l c = 5 := by
      unfold countHash contentHash
      exact h5
    have huniq : ∀ h, 3 < countHash l h → h = c := by
      intro h hgt
      by_contra hne
      have hmono : (l.filter (fun it => contentHash it.content == h)).Sublist
          (l.filter (fun it => it.content != c)) := by
        apply List.monotone_filter_right
        intro it hit
        simp only [beq_iff_eq] at hit
        simp only [bne_iff_ne, ne_eq, decide_eq_true_eq]
        intro hcc
        exact hne (by rw [← hit, ← hcc]; rfl)
      have hlen := hmono.length_le
      rw [hx] at hlen
      simp only [List.length_cons, List.length_nil] at hlen
      unfold countHash at hgt
      omega
    have hmem : ∃ it ∈ l, contentHash it.content = c := by
      have hne : l.filter (fun it => it.content == c) ≠ [] := by
        intro hcontra
        rw [hcontra] at h5
        simp at h5
      rcases List.exists_mem_of_ne_nil _ hne with ⟨it, hit⟩
      rcases List.mem_filter.mp hit with ⟨hmem', hpred⟩
      exact ⟨it, hmem', by simpa using hpred⟩
    have htmpl : templateHash l = some c :=
      templateHash_eq_some (by omega) hmem huniq
    have hfiltered :
        l.filter (fun it => contentHash it.content != c || !isLikelyBlogUrl it.source_url)
          = [x] := by
      rw [List.filter_congr (q := fun it => it.content != c) ?_, hx]
      intro it hit
      by_cases hcc : it.content = c
      · have hb := hblog it hit hcc
        simp [contentHash, hcc, hb]
      · simp [contentHash, hcc]
    simp only [deduplicateItems, htmpl, hfiltered]
    simp [dedupLoop]
  · -- (b): everything is template content
    intro rep tl c' hlen hall hblog'
    have hcount : countHash (rep :: tl) c' = (rep :: tl).length := by
      unfold countHash
      rw [List.filter_length_eq_length.mpr ?_]
      intro it hit
      simp [contentHash, hall it hit]
    have hkeys : ∀ h ∈ hashKeys (rep :: tl), h = c' := by
      intro h hh
      rcases mem_hashKeys.mp hh with ⟨it, hit, heq⟩
      rw [← heq]
      exact hall it hit
    have htmpl : templateHash (rep :: tl) = some c' := by
      apply templateHash_eq_some
      · omega
      · exact ⟨rep, by simp, hall rep (by simp)⟩
      · intro h hgt
        by_contra hne
        have : (rep :: tl).filter (fun it => contentHash it.content == h) = [] := by
          rw [List.filter_eq_nil_iff]
          intro it hit
          simp only [beq_iff_eq, contentHash]
          intro hcontra
          exact hne ((hall it hit ▸ hcontra : c' = h) ▸ rfl)
        unfold countHash at hgt
        rw [this] at hgt
        simp at hgt
    have hfiltered :
        (rep :: tl).filter
          (fun it => contentHash it.content != c' || !isLikelyBlogUrl it.source_url)
          = [] := by
      rw [List.filter_eq_nil_iff]
      intro it hit
      simp [contentHash, hall it hit, hblog' it hit]
    simp only [deduplicateItems, htmpl, hfiltered]
    simp

/-- Witness for `dedup_template_scenario`: both branches instantiated at
concrete 6-item and 5-item inputs. -/
theorem dedup_template_scenario_witness :
    deduplicateItems
      [⟨"t1", "A", "blog", "https://d.com/blog/1"⟩,
       ⟨"t2", "A", "blog", "https://d.com/blog/2"⟩,
       ⟨"t3", "A", "blog", "https://d.com/blog/3"⟩,
       ⟨"t4", "A", "blog", "https://d.com/blog/4"⟩,
       ⟨"t5", "A", "blog", "https://d.com/blog/5"⟩,
       ⟨"t6", "B", "blog", "https://d.com/blog/6"⟩]
      = [⟨"t6", "B", "blog", "https://d.com/blog/6"⟩] ∧
    deduplicateItems
      [⟨"t1", "A", "blog", "https://d.com/blog/1"⟩,
       ⟨"t2", "A", "blog", "https://d.com/blog/2"⟩,
       ⟨"t3", "A", "blog", "https://d.com/blog/3"⟩,
       ⟨"t4", "A", "blog", "https://d.com/blog/4"⟩]
      = [⟨"[Template Content] t1", "A", "blog", "https://d.com/blog/1"⟩] := by
  constructor
  · exact (dedup_template_scenario
      [⟨"t1", "A", "blog", "https://d.com/blog/1"⟩,
       ⟨"t2", "A", "blog", "https://d.com/blog/2"⟩,
       ⟨"t3", "A", "blog", "https://d.com/blog/3"⟩,
       ⟨"t4", "A", "blog", "https://d.com/blog/4"⟩,
       ⟨"t5", "A", "blog", "https://d.com/blog/5"⟩,
       ⟨"t6", "B", "blog", "https://d.com/blog/6"⟩]
      "A" ⟨"t6", "B", "blog", "https://d.com/blog/6"⟩
      (by decide) (by decide) (by decide)).1
  · exact (dedup_template_scenario
      [⟨"x", "Z", "blog", "https://d.com/blog/1"⟩,
       ⟨"x2", "Z", "blog", "https://d.com/blog/2"⟩,
       ⟨"x3", "Z", "blog", "https://d.com/blog/3"⟩,
       ⟨"x4", "Z", "blog", "https://d.com/blog/4"⟩,
       ⟨"x5", "Z", "blog", "https://d.com/blog/5"⟩,
       ⟨"x6", "W", "blog", "https://d.com/blog/6"⟩]
      "Z" ⟨"x6", "W", "blog", "https://d.com/blog/6"⟩
      (by decide) (by decide) (by decide)).2
      ⟨"t1", "A", "blog", "https://d.com/blog/1"⟩
      [⟨"t2", "A", "blog", "https://d.com/blog/2"⟩,
       ⟨"t3", "A", "blog", "https://d.com/blog/3"⟩,
       ⟨"t4", "A", "blog", "https://d.com/blog/4"⟩]
      "A" (by decide) (by decide) (by decide)

/-! ## Parallel extraction engine (`ogscraper/async_extractors.py`)

The per-URL computation (`_extract_content_async` plus everything it
awaits) is modelled as an oracle `extract : String → Except String
(Option ScrapedItem)`: `.error e` is an exception escaping the per-URL
body, `.ok none` is "no item", `.ok (some it)` a successful extraction.
`asyncio.gather(..., return_exceptions=True)` collects the per-URL results
in task order, which the model renders as a `map`. -/

/-- `AsyncMultiExtractor._extract_single_with_semaphore`
(`async_extractors.py` lines 91-111): runs the per-URL extraction and
converts any exception into `None`. -/
def extractSingleWithSemaphore (extract : String → Except String (Option ScrapedItem))
    (url : String) : Option ScrapedItem :=
  match extract url with
  | Except.ok r => r
  | Except.error _ => none

/-- `AsyncMultiExtractor.extract_content_parallel`
(`async_extractors.py` lines 61-89): gather all per-URL results and keep
the non-`None` ones (the `isinstance(result, Exception)` arm is
unreachable because the wrapper already caught every exception). -/
def extract_content_parallel (extract : String → Except String (Option ScrapedItem))
    (urls : List String) : List ScrapedItem :=
  (urls.map (extractSingleWithSemaphore extract)).filterMap id

theorem extract_ok_mem (extract : String → Except String (Option ScrapedItem))
    (v : String) (it : ScrapedItem) (hit : extract v = Except.ok (some it)) :
    ∀ (urls : List String), v ∈ urls → it ∈ extract_content_parallel extract urls := by
  intro urls
  induction urls with
  | nil => intro h; simp at h
  | cons w rest ih =>
    intro hv
    unfold extract_content_parallel
    simp only [List.map_cons, List.filterMap_cons]
    rcases List.mem_cons.mp hv with h1 | h1
    · subst h1
      rw [show extractSingleWithSemaphore extract v = some it by
        unfold extractSingleWithSemaphore; rw [hit]]
      simp
    · have hmem := ih h1
      unfold extract_content_parallel at hmem
      cases hsw : extractSingleWithSemaphore extract w with
      | none => exact hmem
      | some it' => exact List.mem_cons_of_mem it' hmem

/-- **C5.**  An exception while processing one URL of a batch is converted
to "no item for that URL" and never prevents the other URLs from being
processed: the batch result is unchanged if the failing URL is removed,
and every URL whose extraction succeeds still contributes its item. -/
theorem parallel_extraction_isolates_failures
    (extract : String → Except String (Option ScrapedItem))
    (urls : List String) (u : String) (e : String)
    (hu : u ∈ urls) (he : extract u = Except.error e) :
    extract_content_parallel extract urls
      = extract_content_parallel extract (urls.filter (fun v => v != u)) ∧
    ∀ v ∈ urls, ∀ it, extract v = Except.ok (some it) →
      it ∈ extract_content_parallel extract urls := by
  constructor
  · clear hu
    induction urls with
    | nil => rfl
    | cons w rest ih =>
      by_cases hw : w = u
      · subst hw
        unfold extract_content_parallel
        simp only [List.map_cons, List.filterMap_cons, List.filter_cons]
        rw [show extractSingleWithSemaphore extract w = none by
          unfold extractSingleWithSemaphore; rw [he]]
        simp only [bne_self_eq_false, Bool.false_eq_true, if_false]
        exact ih
      · unfold extract_content_parallel
        simp only [List.map_cons, List.filterMap_cons, List.filter_cons]
        rw [if_pos (by simpa using hw)]
        simp only [List.map_cons, List.filterMap_cons]
        unfold extract_content_parallel at ih
        rw [ih]
  · intro v hv it hit
    exact extract_ok_mem extract v it hit urls hv

/-- Witness for `parallel_extraction_isolates_failures`: a batch of three
URLs where the middle one throws. -/
theorem parallel_extraction_isolates_failures_witness :
    (extract_content_parallel
        (fun s => if s = "https://d/bad" then Except.error "network error"
          else Except.ok (some ⟨s, s, "blog", s⟩))
        ["https://d/a", "https://d/bad", "https://d/b"]
      = extract_content_parallel
        (fun s => if s = "https://d/bad" then Except.error "network error"
          else Except.ok (some ⟨s, s, "blog", s⟩))
        (["https://d/a", "https://d/bad", "https://d/b"].filter
          (fun v => v != "https://d/bad"))) ∧
    (⟨"https://d/a", "https://d/a", "blog", "https://d/a"⟩ : ScrapedItem)
      ∈ extract_content_parallel
        (fun s => if s = "https://d/bad" then Except.error "network error"
          else Except.ok (some ⟨s, s, "blog", s⟩))
        ["https://d/a", "https://d/bad", "https://d/b"] := by
  have h := parallel_extraction_isolates_failures
    (fun s => if s = "https://d/bad" then Except.error "network error"
      else Except.ok (some ⟨s, s, "blog", s⟩))
    ["https://d/a", "https://d/bad", "https://d/b"]
    "https://d/bad" "network error" (by decide) rfl
  exact ⟨h.1, h.2 "https://d/a" (by decide) _ rfl⟩

/-! ## Content classification (C7)

`MultiExtractor._classify_content` (`extractors.py` lines 344-399) and
`AsyncMultiExtractor._classify_content` (`async_extractors.py` lines
394-439) are line-for-line identical; `classifyContent` embeds both. -/

/-- The `patterns` dict of `_classify_content`, in insertion order. -/
def classifyPatterns : List (String × List String) :=
  [("podcast_transcript", ["podcast", "episode", "transcript", "audio", "listen"]),
   ("call_transcript", ["transcript", "interview", "conversation", "call", "recording"]),
   ("book", ["book", "chapter", "manual", "documentation", "reference"]),
   ("news", ["/news/", "breaking", "announcement", "press-release", "update"])]

/-- The `strong_tutorial_indicators` list of `_classify_content`. -/
def strongTutorialIndicators : List String :=
  ["step 1", "step one", "first step", "tutorial:", "how to",
   "walkthrough", "guide:", "instructions", "follow these steps"]

/-- `_classify_content(url, title, content)` (both extractors). -/
def classifyContent (url title content : String) : String :=
  let urlLower := pyLower url
  let titleLower := pyLower title
  let contentLower := pyLower content
  if strContains urlLower "substack.com" then "blog"
  else if strContains urlLower "medium.com" then "blog"
  else if strContains urlLower "linkedin.com" then "linkedin_post"
  else if strContains urlLower "reddit.com" then "reddit_comment"
  else
    match classifyPatterns.find? (fun p =>
        p.2.any (fun kw => strContains urlLower kw || strContains titleLower kw)) with
    | some p => p.1
    | none =>
      let contentWords := pySplitWs contentLower
      if contentWords.length > 100 then
        let tutorialCount := (strongTutorialIndicators.filter
          (fun ind => strContains contentLower ind)).length
        let numberedSteps := ((contentWords.take 200).filter
          (fun w => ["1.", "2.", "3.", "4.", "5."].any
            (fun pre => pyStartsWith w pre))).length
        if 2 ≤ tutorialCount ∨ 3 ≤ numberedSteps then "tutorial" else "blog"
      else "blog"

/-- First-match evaluation of an ordered rule list (used by the
spec-structured classifier below). -/
def firstMatch : List (Bool × String) → String → String
  | [], dflt => dflt
  | (b, r) :: rest, dflt => if b then r else firstMatch rest dflt

/-- Modelled from the spec: the tutorial heuristic of §4.2 — only
evaluated when content has more than 100 words; requires at least 2 strong
tutorial phrase matches or at least 3 numbered-step tokens among the first
200 words. -/
def specTutorialHeuristic (contentLower : String) : Bool :=
  let ws := pySplitWs contentLower
  decide (100 < ws.length) &&
    (decide (2 ≤ (strongTutorialIndicators.filter
        (fun ind => strContains contentLower ind)).length) ||
     decide (3 ≤ ((ws.take 200).filter
        (fun w => ["1.", "2.", "3.", "4.", "5."].any
          (fun pre => pyStartsWith w pre))).length))

/-- Modelled from the spec: classification as a single ordered rule list —
(a) platform-specific domain matches, then (b) keyword-pattern matches
against URL and title, evaluated first-match-wins, with (c)/(d) the
tutorial-heuristic-or-blog default. -/
def specClassifyContent (url title content : String) : String :=
  let urlLower := pyLower url
  let titleLower := pyLower title
  firstMatch
    ([(strContains urlLower "substack.com", "blog"),
      (strContains urlLower "medium.com", "blog"),
      (strContains urlLower "linkedin.com", "linkedin_post"),
      (strContains urlLower "reddit.com", "reddit_comment")]
     ++ classifyPatterns.flatMap (fun p =>
          p.2.map (fun kw =>
            (strContains urlLower kw || strContains titleLower kw, p.1))))
    (if specTutorialHeuristic (pyLower content) then "tutorial" else "blog")

theorem firstMatch_map_keywords (cond : String → Bool) (t : String)
    (dflt : String) :
    ∀ (kws : List String) (rest : List (Bool × String)),
      firstMatch (kws.map (fun kw => (cond kw, t)) ++ rest) dflt
        = if kws.any cond then t else firstMatch rest dflt := by
  intro kws
  induction kws with
  | nil => intro rest; simp
  | cons kw kws' ih =>
    intro rest
    simp only [List.map_cons, List.cons_append, firstMatch, List.any_cons]
    by_cases h : cond kw = true
    · simp [h]
    · simp only [h, List.append_eq]
      rw [ih rest]
      simp [h]

theorem firstMatch_flatMap (cond : String → Bool) (dflt : String) :
    ∀ (groups : List (String × List String)),
      firstMatch (groups.flatMap (fun p =>
          p.2.map (fun kw => (cond kw, p.1)))) dflt
        = match groups.find? (fun p => p.2.any cond) with
          | some p => p.1
          | none => dflt := by
  intro groups
  induction groups with
  | nil => rfl
  | cons p groups' ih =>
    simp only [List.flatMap_cons, List.find?_cons]
    rw [firstMatch_map_keywords]
    by_cases h : p.2.any cond = true
    · simp [h]
    · simp only [h, Bool.false_eq_true, if_false]
      rw [ih]

/-- **C7.**  Content classification is a pure function of
`(url, title, content)` that evaluates precedence rules in order, stopping
at the first match: platform domains, then podcast/transcript/book/news
keyword patterns over URL and title, then the tutorial heuristic (only for
content of more than 100 words, requiring ≥2 strong phrases or ≥3
numbered-step tokens in the first 200 words), and finally the default
"blog": the code's `_classify_content` equals the spec-structured
first-match rule list. -/
theorem firstMatch_cons (b : Bool) (r : String) (rest : List (Bool × String))
    (dflt : String) :
    firstMatch ((b, r) :: rest) dflt = if b then r else firstMatch rest dflt := rfl

theorem classify_content_precedence (url title content : String) :
    classifyContent url title content = specClassifyContent url title content := by
  have hrhs : specClassifyContent url title content
      = (if strContains (pyLower url) "substack.com" then "blog"
         else if strContains (pyLower url) "medium.com" then "blog"
         else if strContains (pyLower url) "linkedin.com" then "linkedin_post"
         else if strContains (pyLower url) "reddit.com" then "reddit_comment"
         else
           match classifyPatterns.find? (fun p =>
               p.2.any (fun kw => strContains (pyLower url) kw
                 || strContains (pyLower title) kw)) with
           | some p => p.1
           | none =>
             if specTutorialHeuristic (pyLower content) then "tutorial" else "blog") := by
    show firstMatch _ _ = _
    rw [List.cons_append, List.cons_append, List.cons_append, List.cons_append,
      List.nil_append, firstMatch_cons, firstMatch_cons, firstMatch_cons,
      firstMatch_cons, firstMatch_flatMap]
  rw [hrhs]
  unfold classifyContent
  by_cases h1 : strContains (pyLower url) "substack.com" = true
  · simp [h1]
  · simp only [h1, Bool.false_eq_true, if_false]
    by_cases h2 : strContains (pyLower url) "medium.com" = true
    · simp [h2]
    · simp only [h2, Bool.false_eq_true, if_false]
      by_cases h3 : strContains (pyLower url) "linkedin.com" = true
      · simp [h3]
      · simp only [h3, Bool.false_eq_true, if_false]
        by_cases h4 : strContains (pyLower url) "reddit.com" = true
        · simp [h4]
        · simp only [h4, Bool.false_eq_true, if_false]
          cases hfind : classifyPatterns.find? (fun p =>
              p.2.any (fun kw => strContains (pyLower url) kw
                || strContains (pyLower title) kw)) with
          | some p => simp [hfind]
          | none =>
            simp only [hfind]
            unfold specTutorialHeuristic
            by_cases h5 : 100 < (pySplitWs (pyLower content)).length
            · by_cases h6 : 2 ≤ (strongTutorialIndicators.filter
                  (fun ind => strContains (pyLower content) ind)).length
              · simp [h5, h6]
              · by_cases h7 : 3 ≤ ((pySplitWs (pyLower content)).take 200
                    |>.filter (fun w => ["1.", "2.", "3.", "4.", "5."].any
                      (fun pre => pyStartsWith w pre))).length
                · simp [h5, h6, h7]
                · simp [h5, h6, h7]
            · simp [h5]

/-! ## Title extraction (C8) -/

/-- `_extract_title_from_content` (`async_extractors.py` lines 385-392):
scan the markdown lines and return the first level-1 heading, stripped;
`MultiExtractor._get_title_from_metadata` inlines the same scan
(`extractors.py` lines 335-341).  Python's `line[2:]` slices code points,
i.e. drops two characters of the stripped line. -/
def extractTitleFromContent (content : String) : String :=
  match (pySplit "\n" content).find? (fun l => pyStartsWith (pyStrip l) "# ") with
  | some l => pyStrip (String.mk ((pyStrip l).data.drop 2))
  | none => "Untitled"

/-- `_get_title_from_metadata` (`extractors.py` lines 330-342,
`async_extractors.py` lines 378-383).  The trafilatura metadata is
modelled as the optional title string; `metadata and metadata.get('title')`
is falsy when the metadata is absent or the title empty. -/
def getTitleFromMetadata (metadata : Option String) (content : String) : String :=
  match metadata with
  | some t => if t ≠ "" then t else extractTitleFromContent content
  | none => extractTitleFromContent content

/-- The selector loop of `_extract_title_from_soup`: first selector whose
element exists and has nonempty stripped text wins. -/
def titleSelectorLoop (soup : String → Option String) : List String → String
  | [] => "Untitled"
  | sel :: rest =>
    match soup sel with
    | some txt => if pyStrip txt ≠ "" then pyStrip txt else titleSelectorLoop soup rest
    | none => titleSelectorLoop soup rest

/-- `_extract_title_from_soup` (`extractors.py` lines 312-328).  The
BeautifulSoup document is modelled as a query `soup : selector → optional
element text` standing for `soup.select_one(sel).get_text()`. -/
def extractTitleFromSoup (soup : String → Option String) : String :=
  titleSelectorLoop soup ["h1", ".post-title", ".article-title", ".entry-title", "title"]

/-- The first level-1 heading of the extracted text, if any. -/
def firstHeading (content : String) : Option String :=
  ((pySplit "\n" content).find? (fun l => pyStartsWith (pyStrip l) "# ")).map
    (fun l => pyStrip (String.mk ((pyStrip l).data.drop 2)))

/-- Modelled from the spec: the claimed single fallback chain — structured
metadata from the strategy (if present) → first level-1 heading in
extracted text → page `<title>` element → literal "Untitled". -/
def specTitleFallback (metadata : Option String) (extractedText : String)
    (pageTitle : Option String) : String :=
  match metadata with
  | some t =>
    if t ≠ "" then t
    else match firstHeading extractedText with
      | some h => h
      | none => match pageTitle with
        | some p => p
        | none => "Untitled"
  | none =>
    match firstHeading extractedText with
    | some h => h
    | none => match pageTitle with
      | some p => p
      | none => "Untitled"

/-- **Counterexample to C8.**  For an item extracted by the metadata
strategy with no metadata title, extracted text "hello world" (no level-1
heading) and a page `<title>` of "My Page", the claimed fallback chain
yields "My Page", but the code's `_get_title_from_metadata` yields
"Untitled" — the page `<title>` element is never consulted on this path. -/
theorem title_fallback_counterexample :
    getTitleFromMetadata none "hello world" = "Untitled" ∧
    specTitleFallback none "hello world" (some "My Page") = "My Page" ∧
    getTitleFromMetadata none "hello world"
      ≠ specTitleFallback none "hello world" (some "My Page") := by
  refine ⟨?_, ?_, ?_⟩ <;> decide

/-- Spec-structured metadata-path title: metadata title (if nonempty) →
first level-1 heading → "Untitled" (no `<title>` consultation). -/
def specMetadataTitle (metadata : Option String) (content : String) : String :=
  match metadata with
  | some t =>
    if t ≠ "" then t
    else match firstHeading content with
      | some h => h
      | none => "Untitled"
  | none =>
    match firstHeading content with
    | some h => h
    | none => "Untitled"

/-- Spec-structured DOM-path title: first selector among `h1`,
`.post-title`, `.article-title`, `.entry-title`, `title` with nonempty
stripped text → "Untitled". -/
def specSoupTitle (soup : String → Option String) : String :=
  match ["h1", ".post-title", ".article-title", ".entry-title", "title"].filterMap
      (fun sel => (soup sel).bind
        (fun txt => if pyStrip txt ≠ "" then some (pyStrip txt) else none)) with
  | t :: _ => t
  | [] => "Untitled"

theorem extractTitleFromContent_eq (content : String) :
    extractTitleFromContent content
      = match firstHeading content with
        | some h => h
        | none => "Untitled" := by
  unfold extractTitleFromContent firstHeading
  cases (pySplit "\n" content).find? (fun l => pyStartsWith (pyStrip l) "# ") with
  | none => rfl
  | some l => rfl

theorem titleSelectorLoop_eq (soup : String → Option String) :
    ∀ sels : List String,
      titleSelectorLoop soup sels
        = match sels.filterMap (fun sel => (soup sel).bind
            (fun txt => if pyStrip txt ≠ "" then some (pyStrip txt) else none)) with
          | t :: _ => t
          | [] => "Untitled" := by
  intro sels
  induction sels with
  | nil => rfl
  | cons sel rest ih =>
    simp only [titleSelectorLoop, List.filterMap_cons]
    cases soup sel with
    | none => simpa using ih
    | some txt =>
      by_cases h : pyStrip txt ≠ ""
      · simp [h]
      · have h' : pyStrip txt = "" := not_not.mp h
        simp [h', ih]

/-- **C8 (amended).**  The title fallback depends on the strategy path.
Metadata path (trafilatura): structured metadata title (when nonempty) →
first level-1 heading of the extracted markdown → literal "Untitled"; the
page `<title>` element is not consulted.  DOM path (BeautifulSoup): first
of `h1`, `.post-title`, `.article-title`, `.entry-title`, `<title>` with
nonempty stripped text → literal "Untitled". -/
theorem title_fallback_amended (metadata : Option String) (content : String)
    (soup : String → Option String) :
    getTitleFromMetadata metadata content = specMetadataTitle metadata content ∧
    extractTitleFromSoup soup = specSoupTitle soup := by
  constructor
  · unfold getTitleFromMetadata specMetadataTitle
    cases metadata with
    | none => exact extractTitleFromContent_eq content
    | some t =>
      by_cases h : t ≠ ""
      · simp [h]
      · simp only [h, if_false]
        exact extractTitleFromContent_eq content
  · exact titleSelectorLoop_eq soup _

/-! ## Per-URL extraction pipeline (C9) -/

/-- `AsyncMultiExtractor._is_valid_html` (`async_extractors.py` lines
274-296).  `content_lower.count('<script')` counts non-overlapping
occurrences, i.e. one less than the number of split pieces. -/
def isValidHtml (content : String) : Bool :=
  let contentLower := pyLower content
  if !(strContains contentLower "<html" || strContains contentLower "<body") then
    false
  else
    let contentCount := (["<p", "<div", "<article", "<main", "<section",
      "<h1", "<h2", "<h3"].filter (fun ind => strContains contentLower ind)).length
    let scriptCount := (pySplit "<script" contentLower).length - 1
    decide (2 ≤ contentCount) && (decide (scriptCount = 0) || decide (1 ≤ contentCount))

/-- `AsyncMultiExtractor._extract_with_methods` (`async_extractors.py`
lines 150-176): the strategy race.  `outcomes` lists the three strategy
results in `asyncio.as_completed` completion order (an exception is
`.error`); the first result with trimmed content length above 200 wins and
the rest are cancelled (their results are discarded, which the model
renders by never consulting them). -/
def extractWithMethods (outcomes : List (Except String (Option ScrapedItem))) :
    Option ScrapedItem :=
  match outcomes with
  | [] => none
  | o :: rest =>
    match o with
    | Except.error _ => extractWithMethods rest
    | Except.ok none => extractWithMethods rest
    | Except.ok (some it) =>
      if 200 < (pyStrip it.content).length then some it
      else extractWithMethods rest

/-- Result of `PlaywrightRenderer.render_page`: `html` may be empty
(falsy) and `error` present (truthy). -/
structure RenderResult where
  html : String
  error : Option String
deriving Repr, DecidableEq

/-- The qualification check `if item and len(item.content.strip()) > 200`
applied to a strategy-race result (`async_extractors.py` lines 130, 143). -/
def qualifyResult (res : Option ScrapedItem) : Option ScrapedItem :=
  match res with
  | some it => if 200 < (pyStrip it.content).length then some it else none
  | none => none

/-- The HTTP branch of `_extract_content_async` (lines 116-134): a
qualifying item, or `none` (exception, non-200 status, too-small body,
invalid HTML, or no qualifying strategy result). -/
def httpCandidate (httpOutcome : Except String (Nat × String))
    (methods : String → List (Except String (Option ScrapedItem))) :
    Option ScrapedItem :=
  match httpOutcome with
  | Except.error _ => none
  | Except.ok (status, body) =>
    if status = 200 then
      if body.utf8ByteSize < 1000 then none
      else if !isValidHtml body then none
      else qualifyResult (extractWithMethods (methods body))
    else none

/-- The browser branch of `_extract_content_async` (lines 137-146). -/
def browserCandidate (renderOutcome : Except String RenderResult)
    (methods : String → List (Except String (Option ScrapedItem))) :
    Option ScrapedItem :=
  match renderOutcome with
  | Except.error _ => none
  | Except.ok r =>
    if r.html ≠ "" ∧ r.error = none then
      qualifyResult (extractWithMethods (methods r.html))
    else none

/-- `AsyncMultiExtractor._extract_content_async` (`async_extractors.py`
lines 113-148): take the HTTP-path item if it qualifies, otherwise fall
back to browser rendering when browser mode is enabled. -/
def extractContentAsync (useBrowser : Bool)
    (httpOutcome : Except String (Nat × String))
    (renderOutcome : Except String RenderResult)
    (methods : String → List (Except String (Option ScrapedItem))) :
    Option ScrapedItem :=
  match httpCandidate httpOutcome methods with
  | some it => some it
  | none =>
    if useBrowser then browserCandidate renderOutcome methods else none

theorem qualifyResult_threshold {res : Option ScrapedItem} {it : ScrapedItem}
    (h : qualifyResult res = some it) : 200 < (pyStrip it.content).length := by
  cases res with
  | none => simp [qualifyResult] at h
  | some it' =>
    have heq : qualifyResult (some it')
        = if 200 < (pyStrip it'.content).length then some it' else none := rfl
    rw [heq] at h
    by_cases hlen : 200 < (pyStrip it'.content).length
    · rw [if_pos hlen] at h
      cases h
      exact hlen
    · rw [if_neg hlen] at h
      cases h

theorem httpCandidate_threshold {httpOutcome : Except String (Nat × String)}
    {methods : String → List (Except String (Option ScrapedItem))}
    {it : ScrapedItem} (h : httpCandidate httpOutcome methods = some it) :
    200 < (pyStrip it.content).length := by
  unfold httpCandidate at h
  match httpOutcome with
  | Except.error e => cases h
  | Except.ok (status, body) =>
    simp only [] at h
    split at h
    · split at h
      · cases h
      · split at h
        · cases h
        · exact qualifyResult_threshold h
    · cases h

theorem browserCandidate_threshold {renderOutcome : Except String RenderResult}
    {methods : String → List (Except String (Option ScrapedItem))}
    {it : ScrapedItem} (h : browserCandidate renderOutcome methods = some it) :
    200 < (pyStrip it.content).length := by
  unfold browserCandidate at h
  match renderOutcome with
  | Except.error e => cases h
  | Except.ok r =>
    simp only [] at h
    split at h
    · exact qualifyResult_threshold h
    · cases h

/-- **C9.**  Every item the engine returns for a URL — via the HTTP path
or the browser-rendering path — has trimmed content length strictly
greater than 200 characters; a strategy result at or below the threshold
is never the engine's result. -/
theorem extraction_result_exceeds_threshold (useBrowser : Bool)
    (httpOutcome : Except String (Nat × String))
    (renderOutcome : Except String RenderResult)
    (methods : String → List (Except String (Option ScrapedItem)))
    (it : ScrapedItem)
    (h : extractContentAsync useBrowser httpOutcome renderOutcome methods = some it) :
    200 < (pyStrip it.content).length := by
  unfold extractContentAsync at h
  split at h
  · rename_i it' heq
    cases h
    exact httpCandidate_threshold heq
  · split at h
    · exact browserCandidate_threshold h
    · cases h

set_option maxRecDepth 8192 in
/-- Witness for `extraction_result_exceeds_threshold`: browser path with a
201-character extraction. -/
theorem extraction_result_exceeds_threshold_witness :
    200 < (pyStrip (ScrapedItem.mk "t" (String.mk (List.replicate 201 'a'))
      "blog" "u").content).length :=
  extraction_result_exceeds_threshold true (Except.error "network error")
    (Except.ok ⟨"<html></html>", none⟩)
    (fun _ => [Except.ok (some (ScrapedItem.mk "t"
      (String.mk (List.replicate 201 'a')) "blog" "u"))])
    (ScrapedItem.mk "t" (String.mk (List.replicate 201 'a')) "blog" "u")
    (by decide)

/-! ## Orchestrator: direct URLs skip discovery (C10)
(`ogscraper/scraper.py`) -/

/-- `ScrapingResult` from `ogscraper/models.py`. -/
structure ScrapingResult where
  site : String
  items : List ScrapedItem
deriving Repr, DecidableEq

/-- Modelled `urlparse(url).path` for absolute http(s)-style URLs: strip
fragment and query, then everything after the authority; a URL without a
`://` marker has no netloc and the whole remainder is the path. -/
def parsePath (url : String) : String :=
  let s := (pySplit "#" url).headD ""
  let s := (pySplit "?" s).headD ""
  match pySplit "://" s with
  | [] => ""
  | [noScheme] => noScheme
  | _ :: rest =>
    match pySplit "/" (pyJoin "://" rest) with
    | [] => ""
    | [_] => ""
    | _ :: segs => "/" ++ pyJoin "/" segs

/-- `is_specific_url` from `WebScraper.scrape` line 50:
`bool(parsed.path and parsed.path != '/' and not parsed.path.endswith('/'))`. -/
def isSpecificUrl (baseUrl : String) : Bool :=
  let p := parsePath baseUrl
  decide (p ≠ "") && decide (p ≠ "/") && !(pyEndsWith p "/")

/-- The URL list a scrape hands to the parallel extractor
(`WebScraper.scrape` lines 49-60 plus the `urls[:max_items]` cap of
`_extract_content_parallel` line 88). -/
def scrapeUrls (baseUrl : String) (maxItems : Nat) (discovered : List String) :
    List String :=
  (if isSpecificUrl baseUrl then [baseUrl] else discovered).take maxItems

/-- `WebScraper.scrape` (lines 43-83, parallel path): `discovered` is the
Discoverer's output and `extract` the parallel extraction engine
(one optional item per URL). -/
def scrape (baseUrl : String) (chunkSize maxItems : Nat)
    (discovered : List String)
    (extract : List String → List (Option ScrapedItem)) : ScrapingResult :=
  let urls := if isSpecificUrl baseUrl then [baseUrl] else discovered
  if urls.isEmpty then ⟨baseUrl, []⟩
  else
    let items := (extract (urls.take maxItems)).filterMap id
    if items.isEmpty then ⟨baseUrl, []⟩
    else ⟨baseUrl, processItems chunkSize items⟩

/-- **C10.**  When the base URL's parsed path is non-empty, not "/" and
does not end with "/", the scrape skips URL discovery entirely — its
result does not depend on the discovered URL set — and hands exactly
`[base_url]` to extraction; discovery feeds extraction only when the base
URL is a bare domain or its path ends with "/". -/
theorem scrape_direct_url (baseUrl : String) (chunkSize maxItems : Nat)
    (discovered : List String)
    (extract : List String → List (Option ScrapedItem))
    (hp1 : parsePath baseUrl ≠ "")
    (hp2 : parsePath baseUrl ≠ "/")
    (hp3 : pyEndsWith (parsePath baseUrl) "/" = false)
    (hmax : 1 ≤ maxItems) :
    scrapeUrls baseUrl maxItems discovered = [baseUrl] ∧
    (∀ discovered', scrape baseUrl chunkSize maxItems discovered extract
        = scrape baseUrl chunkSize maxItems discovered' extract) ∧
    ∀ (b' : String) (d' : List String) (m' : Nat),
      isSpecificUrl b' = false → scrapeUrls b' m' d' = d'.take m' := by
  have hspec : isSpecificUrl baseUrl = true := by
    unfold isSpecificUrl
    simp [hp1, hp2, hp3]
  refine ⟨?_, ?_, ?_⟩
  · unfold scrapeUrls
    rw [if_pos hspec]
    match maxItems, hmax with
    | m + 1, _ => simp
  · intro discovered'
    unfold scrape
    rw [if_pos hspec, if_pos hspec]
  · intro b' d' m' hfalse
    unfold scrapeUrls
    rw [hfalse]
    simp

/-- Witness for `scrape_direct_url` at concrete URLs: a direct post URL
skips discovery; a bare domain takes the discovered list. -/
theorem scrape_direct_url_witness :
    scrapeUrls "https://example.com/blog/post-1" 100
        ["https://example.com/other"] = ["https://example.com/blog/post-1"] ∧
    scrape "https://example.com/blog/post-1" 8000 100
        ["https://example.com/other"] (fun _ => [])
      = scrape "https://example.com/blog/post-1" 8000 100
        ["https://x/y"] (fun _ => []) ∧
    scrapeUrls "https://example.com" 5
        ["https://example.com/a", "https://example.com/b"]
      = ["https://example.com/a", "https://example.com/b"].take 5 := by
  have h := scrape_direct_url "https://example.com/blog/post-1" 8000 100
    ["https://example.com/other"] (fun _ => [])
    (by decide) (by decide) (by decide) (by decide)
  exact ⟨h.1, h.2.1 ["https://x/y"],
    h.2.2 "https://example.com" ["https://example.com/a", "https://example.com/b"]
      5 (by decide)⟩

/-! ## Sitemap parsing (`ogscraper/discovery.py`, C6) -/

/-- Modelled `urlparse(url).netloc` for absolute http(s)-style URLs (empty
when the URL has no `scheme://` marker, as in `urlparse`). -/
def parseNetloc (url : String) : String :=
  let s := (pySplit "#" url).headD ""
  let s := (pySplit "?" s).headD ""
  match pySplit "://" s with
  | [] => ""
  | [_] => ""
  | _ :: rest => (pySplit "/" (pyJoin "://" rest)).headD ""

/-- `re.search(r'/\d{4}/', path)` tested at one position. -/
def yearSlashAt : List Char → Bool
  | '/' :: d1 :: d2 :: d3 :: d4 :: '/' :: _ =>
    d1.isDigit && d2.isDigit && d3.isDigit && d4.isDigit
  | _ => false

/-- `re.search(r'/\d{4}/\d{2}/', path)` tested at one position. -/
def yearMonthSlashAt : List Char → Bool
  | '/' :: d1 :: d2 :: d3 :: d4 :: '/' :: e1 :: e2 :: '/' :: _ =>
    d1.isDigit && d2.isDigit && d3.isDigit && d4.isDigit && e1.isDigit && e2.isDigit
  | _ => false

/-- `re.search`: try the position test at every suffix. -/
def reSearch (p : List Char → Bool) : List Char → Bool
  | [] => p []
  | c :: rest => p (c :: rest) || reSearch p rest

/-- Python `s.count(c)` for a single character. -/
def countChar (c : Char) (s : String) : Nat :=
  (s.data.filter (fun c' => c' == c)).length

/-- `URLDiscoverer._is_content_url` (`discovery.py` lines 268-318);
`domain` is `self.domain = urlparse(base_url).netloc`. -/
def isContentUrl (domain : String) (url : String) : Bool :=
  if parseNetloc url ≠ domain then false
  else
    let path := pyLower (parsePath url)
    if ["/tag/", "/category/", "/author/", "/page/",
        "/search", "/login", "/register", "/contact", "/about",
        "/privacy", "/terms", "/legal/", "/schedule", "/demo",
        "/signup", "/download", "/pricing", "/support",
        ".pdf", ".jpg", ".png", ".gif", ".css", ".js",
        ".xml", ".txt", ".ico", ".woff", ".woff2", ".ttf", ".eot",
        "/_next/", "/static/", "/assets/"].any (fun p => strContains path p) then
      false
    else if (["/blog/", "/blogs/", "/post/", "/posts/", "/article/", "/articles/",
        "/news/", "/casestudies/", "/case-studies/", "/story/", "/stories/",
        "/resources/", "/resource/", "/insights/", "/whitepapers/", "/guides/",
        "/updates/", "/content/", "/press/", "/media/"].any
          (fun p => strContains path p))
        || reSearch yearSlashAt path.data
        || reSearch yearMonthSlashAt path.data then
      true
    else if 1 < path.length ∧ path ≠ "/" ∧ 2 ≤ countChar '/' path then
      !(["solutions/", "products/", "services/", "industries/",
         "company/", "careers/", "investors/", "partners/"].any
          (fun p => strContains path p))
    else false

/-- A raw `<url>` entry of a sitemap document: its `<loc>` (absent when
the tag is missing) and its `<lastmod>` date.  Date-string parsing
(`datetime.strptime(date_str, '%Y-%m-%d')` on the part before `T`, with
failures giving `None`) is part of the XML boundary; a parsed
`datetime` date is encoded order-faithfully as its `yyyymmdd` numeral. -/
structure SitemapEntry where
  loc : Option String
  lastmod : Option Nat
deriving Repr, DecidableEq

/-- An XML-parsed sitemap document: the (present) `<sitemap><loc>` values
of a sitemap index, and the raw `<url>` entries. -/
structure SitemapDoc where
  sitemaps : List String
  urlEntries : List SitemapEntry
deriving Repr, DecidableEq

/-- The sitemap-index loop of `_parse_sitemap_content` (lines 125-143):
recurse into nested sitemaps via `fetchNested` (= `self._parse_sitemap`),
breaking once more than 1,000 URLs have accumulated. -/
def nestedSitemapLoop (fetchNested : String → List String) :
    List String → List String → List String
  | [], acc => acc
  | s :: rest, acc =>
    let acc' := acc ++ fetchNested s
    if 1000 < acc'.length then acc'
    else nestedSitemapLoop fetchNested rest acc'

/-- The `<url>`-entry loop of `_parse_sitemap_content` (lines 150-179):
`processed_count` is incremented before the check, and the loop breaks
once it exceeds 2,000; an accepted entry contributes `(loc, lastmod)`. -/
def urlEntryLoop (domain : String) : List SitemapEntry → Nat → List (String × Option Nat)
  | [], _ => []
  | e :: rest, processedCount =>
    let pc := processedCount + 1
    if 2000 < pc then []
    else
      match e.loc with
      | some loc =>
        if isContentUrl domain loc then (loc, e.lastmod) :: urlEntryLoop domain rest pc
        else urlEntryLoop domain rest pc
      | none => urlEntryLoop domain rest pc

/-- Sort key of line 184: `x[1] or datetime(1900, 1, 1)` — a missing date
sorts as 1900-01-01 (`19000101` in the yyyymmdd encoding). -/
def sortKey (p : String × Option Nat) : Nat := p.2.getD 19000101

/-- Stable descending insertion by `sortKey` (an element is placed before
the first element whose key is not larger, so equal keys keep their
original relative order). -/
def insertDescBy (x : String × Option Nat) :
    List (String × Option Nat) → List (String × Option Nat)
  | [] => [x]
  | y :: ys => if sortKey y ≤ sortKey x then x :: y :: ys else y :: insertDescBy x ys

/-- Python's stable `url_data.sort(key=lambda x: x[1] or datetime(1900, 1,
1), reverse=True)` (line 184), modelled as stable insertion sort. -/
def sortDescBy : List (String × Option Nat) → List (String × Option Nat)
  | [] => []
  | x :: xs => insertDescBy x (sortDescBy xs)

/-- `URLDiscoverer._parse_sitemap_content` (`discovery.py` lines 113-198)
on an XML-parsed document (the 10MB size gate of line 118 is part of the
string boundary and not modelled):  nested sitemaps (capped at 3), then
the `<url>` entries filtered by the content heuristic, sorted by `lastmod`
descending (missing dates as 1900-01-01) and truncated to the 100 most
recent. -/
def parseSitemapContent (domain : String) (fetchNested : String → List String)
    (doc : SitemapDoc) : List String :=
  let urls := nestedSitemapLoop fetchNested (doc.sitemaps.take 3) []
  let urlData := urlEntryLoop domain doc.urlEntries 0
  if urlData.isEmpty then urls
  else
    let sorted := sortDescBy urlData
    let limit := if 100 < urlData.length then 100 else urlData.length
    urls ++ (sorted.take limit).map Prod.fst

/-- Modelled from the spec: the `<url>`-entry loop as the claim describes
it — additionally stopping early once 1,000 accepted URLs have been
collected. -/
def urlEntryLoopEarlyStop (domain : String) :
    List SitemapEntry → Nat → Nat → List (String × Option Nat)
  | [], _, _ => []
  | e :: rest, processedCount, accepted =>
    if 1000 ≤ accepted then []
    else
      let pc := processedCount + 1
      if 2000 < pc then []
      else
        match e.loc with
        | some loc =>
          if isContentUrl domain loc then
            (loc, e.lastmod) :: urlEntryLoopEarlyStop domain rest pc (accepted + 1)
          else urlEntryLoopEarlyStop domain rest pc accepted
        | none => urlEntryLoopEarlyStop domain rest pc accepted

/-- Modelled from the spec: `_parse_sitemap_content` as the claim
describes it, with the 1,000-accepted-URL early stop inside the raw
`<url>`-entry processing. -/
def parseSitemapContentEarlyStop (domain : String)
    (fetchNested : String → List String) (doc : SitemapDoc) : List String :=
  let urls := nestedSitemapLoop fetchNested (doc.sitemaps.take 3) []
  let urlData := urlEntryLoopEarlyStop domain doc.urlEntries 0 0
  if urlData.isEmpty then urls
  else
    let sorted := sortDescBy urlData
    let limit := if 100 < urlData.length then 100 else urlData.length
    urls ++ (sorted.take limit).map Prod.fst

/-- A sitemap with 1,001 accepted `<url>` entries: 1,000 old entries for
one blog URL followed by one entry with a newer `lastmod`. -/
def c6BigDoc : SitemapDoc :=
  ⟨[], (List.replicate 1000
    (⟨some "https://d/blog/a", some 20200101⟩ : SitemapEntry))
    ++ [⟨some "https://d/blog/b", some 20230101⟩]⟩

set_option maxRecDepth 100000 in
/-- **Counterexample to C6.**  The `<url>`-entry loop does not stop early
at 1,000 accepted URLs: on `c6BigDoc` the code processes all 1,001 entries
and the newest entry (number 1,001) wins the recency sort, whereas the
claimed early stop would have discarded it before sorting — the outputs
differ. -/
theorem sitemap_no_early_stop_counterexample :
    parseSitemapContent "d" (fun _ => []) c6BigDoc
      ≠ parseSitemapContentEarlyStop "d" (fun _ => []) c6BigDoc := by
  decide

theorem urlEntryLoop_take (domain : String) :
    ∀ (entries : List SitemapEntry) (pc : Nat),
      urlEntryLoop domain entries pc
        = urlEntryLoop domain (entries.take (2000 - pc)) pc := by
  intro entries
  induction entries with
  | nil => intro pc; simp
  | cons e rest ih =>
    intro pc
    by_cases hpc : 2000 < pc + 1
    · have h0 : 2000 - pc = 0 := by omega
      rw [h0]
      simp only [List.take_zero]
      unfold urlEntryLoop
      rw [if_pos hpc]
    · have h1 : 2000 - pc = (2000 - (pc + 1)) + 1 := by omega
      rw [h1, List.take_succ_cons]
      unfold urlEntryLoop
      rw [if_neg hpc, if_neg hpc]
      cases e.loc with
      | none => exact ih (pc + 1)
      | some loc => simp only [ih (pc + 1)]

theorem insertDescBy_mem {x a : String × Option Nat} :
    ∀ {l : List (String × Option Nat)}, a ∈ insertDescBy x l → a = x ∨ a ∈ l := by
  intro l
  induction l with
  | nil => intro h; simpa [insertDescBy] using h
  | cons y ys ih =>
    intro h
    unfold insertDescBy at h
    split at h
    · rcases List.mem_cons.mp h with h1 | h1
      · exact Or.inl h1
      · exact Or.inr h1
    · rcases List.mem_cons.mp h with h1 | h1
      · exact Or.inr (by simp [h1])
      · rcases ih h1 with h2 | h2
        · exact Or.inl h2
        · exact Or.inr (by simp [h2])

theorem insertDescBy_pairwise {x : String × Option Nat} :
    ∀ {l : List (String × Option Nat)},
      l.Pairwise (fun a b => sortKey b ≤ sortKey a) →
      (insertDescBy x l).Pairwise (fun a b => sortKey b ≤ sortKey a) := by
  intro l
  induction l with
  | nil => intro _; simp [insertDescBy]
  | cons y ys ih =>
    intro hpw
    rcases List.pairwise_cons.mp hpw with ⟨hy, hys⟩
    unfold insertDescBy
    split
    · rename_i hle
      refine List.Pairwise.cons ?_ hpw
      intro b hb
      rcases List.mem_cons.mp hb with h1 | h1
      · subst h1; exact hle
      · exact le_trans (hy b h1) hle
    · rename_i hgt
      refine List.Pairwise.cons ?_ (ih hys)
      intro b hb
      rcases insertDescBy_mem hb with h1 | h1
      · subst h1; omega
      · exact hy b h1

theorem sortDescBy_pairwise :
    ∀ (l : List (String × Option Nat)),
      (sortDescBy l).Pairwise (fun a b => sortKey b ≤ sortKey a) := by
  intro l
  induction l with
  | nil => simp [sortDescBy]
  | cons x xs ih => exact insertDescBy_pairwise ih

/-- **C6 (amended).**  `_parse_sitemap_content` examines at most 2,000 raw
`<url>` entries (entries beyond the 2,000-entry cap never affect the
result — in particular a 3,000-entry sitemap is cut off at 2,000), and
returns at most 100 URLs from those entries, sorted by `lastmod`
descending where a missing date sorts as 1900-01-01 (hence after any later
date).  The 1,000-URL early stop applies to accumulation across nested
sitemap-index entries, not to raw `<url>`-entry processing. -/
theorem sitemap_parse_amended (domain : String)
    (fetchNested : String → List String) (entries : List SitemapEntry) :
    urlEntryLoop domain entries 0 = urlEntryLoop domain (entries.take 2000) 0 ∧
    (parseSitemapContent domain fetchNested ⟨[], entries⟩).length ≤ 100 ∧
    (∀ l : List (String × Option Nat),
      (sortDescBy l).Pairwise (fun a b => sortKey b ≤ sortKey a)) ∧
    (∀ (s : String) (rest acc : List String),
      1000 < (acc ++ fetchNested s).length →
      nestedSitemapLoop fetchNested (s :: rest) acc = acc ++ fetchNested s) := by
  refine ⟨?_, ?_, sortDescBy_pairwise, ?_⟩
  · exact urlEntryLoop_take domain entries 0
  · unfold parseSitemapContent
    simp only [List.take_nil]
    rw [show nestedSitemapLoop fetchNested [] [] = [] from rfl]
    split
    · simp
    · simp only [List.nil_append, List.length_map]
      split
      · exact List.length_take_le 100 _
      · rename_i hle
        have h1 := List.length_take_le (urlEntryLoop domain entries 0).length
          (sortDescBy (urlEntryLoop domain entries 0))
        omega
  · intro s rest acc hlen
    unfold nestedSitemapLoop
    rw [if_pos hlen]

set_option maxRecDepth 8192 in
/-- Witness for `sitemap_parse_amended`: the nested-sitemap early stop
fires on a nested sitemap yielding 1,001 URLs. -/
theorem sitemap_parse_amended_witness :
    nestedSitemapLoop (fun _ => List.replicate 1001 "https://d/blog/x")
        ["https://d/sitemap1.xml", "https://d/sitemap2.xml"] []
      = [] ++ List.replicate 1001 "https://d/blog/x" :=
  (sitemap_parse_amended "d" (fun _ => List.replicate 1001 "https://d/blog/x")
      []).2.2.2
    "https://d/sitemap1.xml" ["https://d/sitemap2.xml"] [] (by decide)

end OGScraper
